import Mathlib

/-!
Verification of the alignment post-processing core (`post_align` module):
genome matching, alignment reading, per-genome grouping, family
concatenation and the post-alignment orchestrator, together with the
idempotent caching behaviour of the concatenation and grouping launchers.

The module's functions are modelled shallowly: file contents are strings,
a directory state is an association list from paths to contents, and the
fatal `sys.exit` paths are modelled with `Except`.
-/

set_option autoImplicit false
set_option linter.unusedVariables false

namespace PostAlign

/-! ## Filesystem model

A directory state is an association list from paths to file contents
(bytes modelled as `String`).  `writeFile` shadows any previous entry,
`lookupFile` returns the most recent one. -/

abbrev FS : Type := List (String × String)

def lookupFile (fs : FS) (p : String) : Option String :=
  match fs with
  | [] => none
  | q :: rest => if q.1 = p then some q.2 else lookupFile rest p

def writeFile (fs : FS) (p c : String) : FS :=
  (p, c) :: fs

theorem lookupFile_writeFile_same (fs : FS) (p c : String) :
    lookupFile (writeFile fs p c) p = some c := by
  simp [writeFile, lookupFile]

theorem lookupFile_writeFile_other (fs : FS) (p q c : String) (h : p ≠ q) :
    lookupFile (writeFile fs p c) q = lookupFile fs q := by
  simp [writeFile, lookupFile, h]

/-! ## Structured log messages

Each log/error event emitted by the module, with the data the message
interpolates (the rendered text is in the doc comments). -/

inductive LogMsg : Type
  /-- Message "Concatenating all alignment files". -/
  | concatenating
  /-- Message "Alignments already concatenated in <path>. Program will use it for next steps". -/
  | alreadyConcat (path : String)
  /-- Message "The alignment file <path> does not exist. Please check the
  families you want, and their corresponding alignment files". -/
  | missingFamFile (path : String)
  /-- Message "Grouping alignments per genome". -/
  | grouping
  /-- Message "Grouping already done" (cache-hit skip). -/
  | groupingSkipped
  /-- Message "Protein <header> does not correspond to any genome name
  given... <genomes>". -/
  | unmatched (header : String) (genomes : List String)
  /-- Message "Problems occurred while grouping alignments by genome: all
  genomes do not have the same number of sequences. ...". -/
  | uneven
  /-- Message "<n> sequences found per genome". -/
  | nSeqsPerGenome (n : Nat)
  /-- Message "Writing alignments per genome". -/
  | writingGroups
  /-- Message "An error occurred. We could not group sequences by genome.". -/
  | couldNotGroup
  deriving DecidableEq, Repr

/-! ## Genome Matcher

`Modelled from the spec:` the source module `post_align.py` is absent from
the tree (only its unit tests are present); `get_genome` follows spec §4.1:
a genome matches if its identifier occurs as a substring anywhere in the
header, and the first match in the supplied order wins. -/

def occursIn (g header : String) : Bool :=
  decide (g.data <:+: header.data)

def get_genome (header : String) (genomes : List String) : Option String :=
  genomes.find? (fun g => occursIn g header)

/-! ## C3: characterisation of `get_genome` -/

theorem get_genome_nil (header : String) : get_genome header [] = none := rfl

theorem get_genome_cons (header g : String) (gs : List String) :
    get_genome header (g :: gs) =
      if g.data <:+: header.data then some g else get_genome header gs := by
  by_cases h : g.data <:+: header.data <;>
    simp [get_genome, List.find?, occursIn, h]

/-- C3. `get_genome header genomes = some g` exactly when the list splits as
`pre ++ g :: post` with `g`'s identifier an infix (substring anywhere) of the
header and no genome of `pre` an infix of the header — i.e. a genome is
returned iff its identifier occurs somewhere in the header, and among several
matches the first in the supplied order wins; and `none` is returned exactly
when no supplied identifier occurs in the header. -/
theorem get_genome_spec (header g : String) (genomes : List String) :
    (get_genome header genomes = some g ↔
      ∃ pre post, genomes = pre ++ g :: post ∧ g.data <:+: header.data ∧
        ∀ g' ∈ pre, ¬ g'.data <:+: header.data) ∧
    (get_genome header genomes = none ↔
      ∀ g' ∈ genomes, ¬ g'.data <:+: header.data) := by
  constructor
  · induction genomes with
    | nil =>
      simp only [get_genome_nil]
      constructor
      · intro h; cases h
      · rintro ⟨pre, post, h, -, -⟩
        exact absurd h (List.append_ne_nil_of_right_ne_nil pre (List.cons_ne_nil _ _)).symm
    | cons a gs ih =>
      rw [get_genome_cons]
      by_cases ha : a.data <:+: header.data
      · simp only [ha, if_pos, Option.some.injEq]
        constructor
        · rintro rfl
          exact ⟨[], gs, rfl, ha, by simp⟩
        · rintro ⟨pre, post, hsplit, hg, hpre⟩
          cases pre with
          | nil =>
            have h2 : a = g ∧ gs = post := by simpa using hsplit
            exact h2.1
          | cons b pre' =>
            exfalso
            have hb : b = a := by simpa using congrArg (·.head?) hsplit.symm
            exact hpre b (by simp) (hb ▸ ha)
      · simp only [ha, if_neg, not_false_iff]
        rw [ih]
        constructor
        · rintro ⟨pre, post, hsplit, hg, hpre⟩
          refine ⟨a :: pre, post, by simp [hsplit], hg, ?_⟩
          intro g' hg'
          rcases List.mem_cons.mp hg' with h | h
          · exact h ▸ ha
          · exact hpre g' h
        · rintro ⟨pre, post, hsplit, hg, hpre⟩
          cases pre with
          | nil =>
            exfalso
            have : a = g := by simpa using congrArg (·.head?) hsplit
            exact ha (this ▸ hg)
          | cons b pre' =>
            have hb : b = a := by simpa using congrArg (·.head?) hsplit.symm
            have htail : gs = pre' ++ g :: post := by
              simpa using congrArg (·.tail) hsplit
            exact ⟨pre', post, htail, hg, fun g' h => hpre g' (by simp [h])⟩
  · induction genomes with
    | nil => simp [get_genome_nil]
    | cons a gs ih =>
      rw [get_genome_cons]
      by_cases ha : a.data <:+: header.data
      · simp [ha]
      · simp only [ha, if_neg, not_false_iff, ih, List.mem_cons]
        constructor
        · rintro h g' (rfl | hmem)
          · exact ha
          · exact h g' hmem
        · intro h g' hmem
          exact h g' (Or.inr hmem)

/-! ## Line model

Python iterates a file line by line and strips the terminators; we model a
file's line structure by splitting its contents on `'\n'`. -/

def splitLinesAux : List Char → List Char → List (List Char)
  | [], acc => [acc.reverse]
  | c :: rest, acc =>
    if c = '\n' then acc.reverse :: splitLinesAux rest []
    else splitLinesAux rest (c :: acc)

def linesOf (s : String) : List String :=
  (splitLinesAux s.data []).map String.mk

theorem splitLinesAux_line (l : List Char) (hl : '\n' ∉ l) (acc rest : List Char) :
    splitLinesAux (l ++ '\n' :: rest) acc =
      (acc.reverse ++ l) :: splitLinesAux rest [] := by
  induction l generalizing acc with
  | nil => simp [splitLinesAux]
  | cons c l ih =>
    have hc : ¬ c = '\n' := fun h => hl (h ▸ List.mem_cons_self c l)
    have hl' : '\n' ∉ l := fun h => hl (List.mem_cons_of_mem c h)
    simp [splitLinesAux, hc, ih hl']

theorem data_join (l : List String) :
    (String.join l).data = (l.map String.data).flatten := by
  have key : ∀ (l : List String) (s : String),
      (l.foldl (fun r t => r ++ t) s).data = s.data ++ (l.map String.data).flatten := by
    intro l
    induction l with
    | nil => simp
    | cons a l ih =>
      intro s
      simp [List.foldl_cons, ih, String.data_append]
  exact (key l "").trans (by simp)

/-! ## Group Writer

`Modelled from the spec:` `write_groups` of the absent `post_align.py`,
following spec §4.3: for every genome of the block set, in insertion order,
one FASTA record is written, the header line `>` + identifier followed by
the concatenation of the genome's blocks as one line. -/

def write_groups (sequences : List (String × List String)) : String :=
  String.join (sequences.map (fun p => ">" ++ p.1 ++ "\n" ++ String.join p.2 ++ "\n"))

/-- The line structure `write_groups` is meant to produce: per genome, a
header line then a single sequence line joining the blocks with no
separator. -/
def groupLines (sequences : List (String × List String)) : List String :=
  sequences.flatMap (fun p => [">" ++ p.1, String.join p.2])

theorem not_newline_in_join (bs : List String)
    (h : ∀ b ∈ bs, '\n' ∉ b.data) : '\n' ∉ (String.join bs).data := by
  rw [data_join]
  intro hmem
  rcases List.mem_flatten.mp hmem with ⟨l, hl, hc⟩
  rcases List.mem_map.mp hl with ⟨b, hb, rfl⟩
  exact h b hb hc

theorem mk_data (s : String) : String.mk s.data = s := rfl

theorem splitLines_write_groups (bs : List (String × List String))
    (hg : ∀ p ∈ bs, '\n' ∉ p.1.data ∧ ∀ b ∈ p.2, '\n' ∉ b.data) :
    splitLinesAux (write_groups bs).data [] =
      (groupLines bs).map String.data ++ [[]] := by
  induction bs with
  | nil => simp [write_groups, groupLines, String.join, splitLinesAux]
  | cons p bs ih =>
    have hdata : (write_groups (p :: bs)).data =
        ('>' :: p.1.data) ++ '\n' ::
          ((String.join p.2).data ++ '\n' :: (write_groups bs).data) := by
      simp [write_groups, data_join, String.data_append]
    have h1 : '\n' ∉ '>' :: p.1.data := by
      intro hmem
      rcases List.mem_cons.mp hmem with h | h
      · exact absurd h.symm (by decide)
      · exact (hg p (by simp)).1 h
    have h2 : '\n' ∉ (String.join p.2).data :=
      not_newline_in_join p.2 (hg p (by simp)).2
    rw [hdata, splitLinesAux_line _ h1, splitLinesAux_line _ h2,
      ih (fun q hq => hg q (by simp [hq]))]
    simp [groupLines, String.data_append]

/-- C2. For every block set whose genome names and blocks contain no newline
characters, the file written by `write_groups` consists, genome by genome in
the mapping's (insertion) order, of exactly one FASTA record: the header line
`>` + genome identifier, then one single unbroken line equal to the
concatenation of that genome's blocks in block order with no separator
(the final `""` is the empty fragment after the last line terminator). -/
theorem write_groups_spec (bs : List (String × List String))
    (hg : ∀ p ∈ bs, '\n' ∉ p.1.data ∧ ∀ b ∈ p.2, '\n' ∉ b.data) :
    linesOf (write_groups bs) = groupLines bs ++ [""] := by
  have hid : ∀ l : List String, l.map (fun s => String.mk s.data) = l := by
    intro l
    induction l with
    | nil => rfl
    | cons a l ih => simp [ih, mk_data]
  rw [linesOf, splitLines_write_groups bs hg, List.map_append, List.map_map]
  rw [show (String.mk ∘ String.data) = fun s => String.mk s.data from rfl,
    hid (groupLines bs)]
  rfl

/-- Witness for C2 at the block set of the unit test `test_write_groups`. -/
theorem write_groups_spec_witness :
    linesOf (write_groups
        [("ESCO.0216.00001", ["AAAAA-", "TTTTT", "CCCCC", "GGGGG"]),
         ("ESCO.0216.00002", ["AAAAT-", "TTTTA", "-CCCG", "GGGGC"]),
         ("ESCO.0216.00003", ["AAAAAA", "TT-TT", "CCC-C", "GCGG-"])]) =
      [">ESCO.0216.00001", "AAAAA-TTTTTCCCCCGGGGG",
       ">ESCO.0216.00002", "AAAAT-TTTTA-CCCGGGGGC",
       ">ESCO.0216.00003", "AAAAAATT-TTCCC-CGCGG-", ""] := by
  rw [write_groups_spec _ (by decide)]
  decide

/-! ## Alignment Reader

`Modelled from the spec:` `read_alignments` of the absent `post_align.py`,
following spec §4.2: the file is streamed as FASTA records; each header is
attributed to a genome via the Genome Matcher (failing the whole read on the
first unattributable header), each non-header line is appended to the
current record's block, and at the end all genomes present must have the
same number of blocks. -/

def isHeaderLine (l : String) : Bool :=
  l.data.head? == some '>'

/-- Start a fresh (empty) block for genome `g`, creating its entry at the end
of the mapping on first encounter (dict insertion order). -/
def addBlock : List (String × List String) → String → List (String × List String)
  | [], g => [(g, [""])]
  | p :: rest, g =>
    if p.1 = g then (p.1, p.2 ++ [""]) :: rest else p :: addBlock rest g

def appendLast : List String → String → List String
  | [], s => [s]
  | [b], s => [b ++ s]
  | b :: b2 :: rest, s => b :: appendLast (b2 :: rest) s

/-- Append sequence text `s` to the last (current) block of genome `g`. -/
def appendCur : List (String × List String) → String → String → List (String × List String)
  | [], _, _ => []
  | p :: rest, g, s =>
    if p.1 = g then (p.1, appendLast p.2 s) :: rest else p :: appendCur rest g s

inductive ReadError : Type
  | unmatched (header : String) (genomes : List String)
  | uneven
  deriving DecidableEq, Repr

def parseLines (genomes : List String) :
    List String → Option String → List (String × List String) →
      Except ReadError (List (String × List String))
  | [], _, acc => .ok acc
  | l :: rest, cur, acc =>
    if isHeaderLine l then
      match get_genome l genomes with
      | none => .error (.unmatched l genomes)
      | some g => parseLines genomes rest (some g) (addBlock acc g)
    else
      match cur with
      | none => parseLines genomes rest none acc
      | some g => parseLines genomes rest (some g) (appendCur acc g l)

/-- All genomes present have the same number of blocks. -/
def uniformCounts : List (String × List String) → Bool
  | [] => true
  | p :: rest => rest.all (fun q => q.2.length == p.2.length)

def read_alignments (alnLines : List String) (genomes : List String) :
    Except ReadError (List (String × List String)) :=
  match parseLines genomes alnLines none [] with
  | .error e => .error e
  | .ok bs => if uniformCounts bs then .ok bs else .error .uneven

/-! ## Grouping Orchestrator

`Modelled from the spec:` `group_by_genome` of the absent `post_align.py`,
following spec §4.4: read the alignment, and only on success write the
per-genome groups; on a read failure return `false` without writing. -/

def group_by_genome (genomes : List String) (alnLines : List String)
    (outPath : String) (fs : FS) : Bool × FS × List LogMsg :=
  match read_alignments alnLines genomes with
  | .error (.unmatched h gs) => (false, fs, [.unmatched h gs])
  | .error .uneven => (false, fs, [.uneven])
  | .ok bs =>
      (true, writeFile fs outPath (write_groups bs),
        [.nSeqsPerGenome ((bs.head?.map (fun p => p.2.length)).getD 0), .writingGroups])

/-- A line that is a FASTA header no supplied genome identifier occurs in. -/
def unmatchedHeader (genomes : List String) (l : String) : Bool :=
  isHeaderLine l && (get_genome l genomes).isNone

theorem parseLines_unmatched (genomes : List String) (alnLines : List String)
    (h : String) (t : List String)
    (hbad : alnLines.filter (unmatchedHeader genomes) = h :: t) :
    ∀ (cur : Option String) (acc : List (String × List String)),
      parseLines genomes alnLines cur acc = .error (.unmatched h genomes) := by
  induction alnLines generalizing h t with
  | nil => simp [List.filter] at hbad
  | cons l rest ih =>
    intro cur acc
    by_cases hhd : isHeaderLine l
    · cases hg : get_genome l genomes with
      | none =>
        have hl : l = h := by
          have : unmatchedHeader genomes l = true := by
            simp [unmatchedHeader, hhd, hg]
          rw [List.filter_cons_of_pos this] at hbad
          exact (List.cons.injEq _ _ _ _ ▸ hbad).1
        subst hl
        simp [parseLines, hhd, hg]
      | some g =>
        have : unmatchedHeader genomes l = false := by
          simp [unmatchedHeader, hg]
        rw [List.filter_cons_of_neg (by simp [this])] at hbad
        simp only [parseLines, hhd, if_pos, hg]
        exact ih h t hbad _ _
    · have : unmatchedHeader genomes l = false := by
        simp [unmatchedHeader, hhd]
      rw [List.filter_cons_of_neg (by simp [this])] at hbad
      cases cur with
      | none =>
        simp only [parseLines, hhd, if_neg, Bool.false_eq_true, not_false_iff]
        exact ih h t hbad _ _
      | some g =>
        simp only [parseLines, hhd, if_neg, Bool.false_eq_true, not_false_iff]
        exact ih h t hbad _ _

/-- C4. If the alignment file contains a header in which no supplied genome
identifier occurs (the filter of such lines being `h :: t`, so `h` is the
first one) and no file is present at the output path, then `group_by_genome`
returns `false`, leaves the filesystem unchanged — so no file exists at the
output path afterwards — and its error log names the exact unmatched header
`h` together with the complete supplied genome list. -/
theorem group_by_genome_unmatched (genomes alnLines : List String)
    (outPath : String) (fs : FS) (h : String) (t : List String)
    (hbad : alnLines.filter (unmatchedHeader genomes) = h :: t)
    (hout : lookupFile fs outPath = none) :
    group_by_genome genomes alnLines outPath fs =
      (false, fs, [LogMsg.unmatched h genomes]) ∧
    lookupFile (group_by_genome genomes alnLines outPath fs).2.1 outPath = none := by
  have hparse := parseLines_unmatched genomes alnLines h t hbad none []
  have hread : read_alignments alnLines genomes = .error (.unmatched h genomes) := by
    simp [read_alignments, hparse]
  constructor
  · simp [group_by_genome, hread]
  · simp [group_by_genome, hread, hout]

/-- Witness for C4: a two-family alignment whose third header belongs to no
supplied genome. -/
theorem group_by_genome_unmatched_witness :
    ([">GEN2.1017.00001.i1_1", "AAA", ">GENO.1216.00002.i1_3", "CCC"].filter
        (unmatchedHeader ["GEN2.1017.00001"]) = [">GENO.1216.00002.i1_3"]) ∧
    lookupFile [] "out.grp.aln" = none ∧
    group_by_genome ["GEN2.1017.00001"]
        [">GEN2.1017.00001.i1_1", "AAA", ">GENO.1216.00002.i1_3", "CCC"]
        "out.grp.aln" [] =
      (false, [], [LogMsg.unmatched ">GENO.1216.00002.i1_3" ["GEN2.1017.00001"]]) := by
  refine ⟨by decide, rfl, ?_⟩
  exact (group_by_genome_unmatched ["GEN2.1017.00001"]
    [">GEN2.1017.00001.i1_1", "AAA", ">GENO.1216.00002.i1_3", "CCC"]
    "out.grp.aln" [] ">GENO.1216.00002.i1_3" [] (by decide) rfl).1

theorem uniformCounts_eq_true (bs : List (String × List String))
    (h : uniformCounts bs = true) :
    ∀ p ∈ bs, ∀ q ∈ bs, p.2.length = q.2.length := by
  cases bs with
  | nil => intro p hp; cases hp
  | cons hd rest =>
    have hall : ∀ q ∈ rest, q.2.length = hd.2.length := by
      intro q hq
      have := List.all_eq_true.mp h q hq
      simpa using this
    intro p hp q hq
    rcases List.mem_cons.mp hp with rfl | hp' <;>
      rcases List.mem_cons.mp hq with rfl | hq'
    · rfl
    · exact (hall q hq').symm
    · exact hall p hp'
    · exact (hall p hp').trans (hall q hq').symm

/-- C5. If parsing succeeds (every header matches some supplied genome) but
two genomes of the parsed result have different numbers of blocks, then
`read_alignments` fails with the uneven-block-count error ("genomes do not
have the same number of sequences"), and consequently `group_by_genome`
returns `false` with the filesystem unchanged — no output file is created. -/
theorem read_alignments_uneven (genomes alnLines : List String)
    (outPath : String) (fs : FS) (bs : List (String × List String))
    (hparse : parseLines genomes alnLines none [] = .ok bs)
    (p q : String × List String) (hp : p ∈ bs) (hq : q ∈ bs)
    (hne : p.2.length ≠ q.2.length)
    (hout : lookupFile fs outPath = none) :
    read_alignments alnLines genomes = .error .uneven ∧
    group_by_genome genomes alnLines outPath fs = (false, fs, [LogMsg.uneven]) ∧
    lookupFile (group_by_genome genomes alnLines outPath fs).2.1 outPath = none := by
  have huc : uniformCounts bs = false := by
    cases huc : uniformCounts bs with
    | false => rfl
    | true => exact absurd (uniformCounts_eq_true bs huc p hp q hq) hne
  have hread : read_alignments alnLines genomes = .error .uneven := by
    simp [read_alignments, hparse, huc]
  refine ⟨hread, ?_, ?_⟩
  · simp [group_by_genome, hread]
  · simp [group_by_genome, hread, hout]

/-- Witness for C5: genome GA contributes two blocks, GB only one. -/
theorem read_alignments_uneven_witness :
    parseLines ["GA.1", "GB.1"] [">GA.1_p1", "AA", ">GB.1_p1", "CC", ">GA.1_p2", "TT"]
        none [] = .ok [("GA.1", ["AA", "TT"]), ("GB.1", ["CC"])] ∧
    read_alignments [">GA.1_p1", "AA", ">GB.1_p1", "CC", ">GA.1_p2", "TT"]
        ["GA.1", "GB.1"] = .error .uneven ∧
    group_by_genome ["GA.1", "GB.1"]
        [">GA.1_p1", "AA", ">GB.1_p1", "CC", ">GA.1_p2", "TT"] "o.grp.aln" [] =
      (false, [], [LogMsg.uneven]) := by
  refine ⟨rfl, ?_, ?_⟩
  · exact (read_alignments_uneven ["GA.1", "GB.1"]
      [">GA.1_p1", "AA", ">GB.1_p1", "CC", ">GA.1_p2", "TT"] "o.grp.aln" []
      [("GA.1", ["AA", "TT"]), ("GB.1", ["CC"])] rfl
      ("GA.1", ["AA", "TT"]) ("GB.1", ["CC"]) (by decide) (by decide)
      (by decide) rfl).1
  · exact (read_alignments_uneven ["GA.1", "GB.1"]
      [">GA.1_p1", "AA", ">GB.1_p1", "CC", ">GA.1_p2", "TT"] "o.grp.aln" []
      [("GA.1", ["AA", "TT"]), ("GB.1", ["CC"])] rfl
      ("GA.1", ["AA", "TT"]) ("GB.1", ["CC"]) (by decide) (by decide)
      (by decide) rfl).2.1

/-! ## Idempotent Grouping Launcher

`Modelled from the spec:` `launch_group_by_genome` of the absent
`post_align.py`, following spec §4.5: if the grouped output file already
exists and the upstream concatenation status is not freshly produced
(`"Done"`), skip recomputation and return `true`; otherwise log that
grouping starts and invoke the Grouping Orchestrator. -/

def launch_group_by_genome (all_genomes : List String) (alnLines : List String)
    (status : String) (outPath : String) (fs : FS) : Bool × FS × List LogMsg :=
  if (lookupFile fs outPath).isSome = true ∧ status ≠ "Done" then
    (true, fs, [.groupingSkipped])
  else
    let r := group_by_genome all_genomes alnLines outPath fs
    (r.1, r.2.1, .grouping :: r.2.2)

/-- C8. The launcher skips recomputation, returns `true` and leaves the
existing output file's content (even an empty file) byte-for-byte unchanged
exactly when a file already exists at the output path AND the upstream
concatenation status is not `"Done"`; in every other case (status `"Done"`,
or output file absent) it logs that grouping starts and invokes the
grouping, whose result it returns. -/
theorem launch_group_by_genome_spec (all_genomes alnLines : List String)
    (status outPath : String) (fs : FS) :
    (((∃ c, lookupFile fs outPath = some c) ∧ status ≠ "Done") →
      launch_group_by_genome all_genomes alnLines status outPath fs =
        (true, fs, [LogMsg.groupingSkipped]) ∧
      lookupFile
        (launch_group_by_genome all_genomes alnLines status outPath fs).2.1
        outPath = lookupFile fs outPath) ∧
    ((lookupFile fs outPath = none ∨ status = "Done") →
      launch_group_by_genome all_genomes alnLines status outPath fs =
        ((group_by_genome all_genomes alnLines outPath fs).1,
         (group_by_genome all_genomes alnLines outPath fs).2.1,
         LogMsg.grouping ::
           (group_by_genome all_genomes alnLines outPath fs).2.2)) := by
  constructor
  · rintro ⟨⟨c, hc⟩, hst⟩
    have hcond : (lookupFile fs outPath).isSome = true ∧ status ≠ "Done" :=
      ⟨by simp [hc], hst⟩
    rw [launch_group_by_genome, if_pos hcond]
    exact ⟨rfl, rfl⟩
  · intro hcase
    have hcond : ¬ ((lookupFile fs outPath).isSome = true ∧ status ≠ "Done") := by
      rcases hcase with h | h
      · rintro ⟨hs, -⟩
        rw [h] at hs
        cases hs
      · rintro ⟨-, hne⟩
        exact hne h
    rw [launch_group_by_genome, if_neg hcond]

/-- Witness for C8, cache-hit branch: an existing (empty) output file and
status `"OK"` make the launcher skip and keep the file unchanged. -/
theorem launch_group_by_genome_spec_witness :
    launch_group_by_genome ["GA.1"] [">GA.1_p1", "AA"] "OK" "o.grp.aln"
        [("o.grp.aln", "")] =
      (true, [("o.grp.aln", "")], [LogMsg.groupingSkipped]) :=
  ((launch_group_by_genome_spec ["GA.1"] [">GA.1_p1", "AA"] "OK" "o.grp.aln"
      [("o.grp.aln", "")]).1 ⟨⟨"", rfl⟩, by decide⟩).1

/-! ## Family Concatenator

`Modelled from the spec:` `concat_alignments` of the absent `post_align.py`,
following spec §4.6: the output path is `<prefix>-complete.cat.aln`; if it
already exists it is reused with status `"OK"`; otherwise every family file
`<prefix>-mafft-prt2nuc.<id>.aln` must be present (a missing one is a fatal
error naming that path, with nothing written), and the present files' raw
contents are concatenated in the given family order, status `"Done"`.  The
`quiet` flag only silences the progress display. -/

def famPath (pref : String) (num : Nat) : String :=
  pref ++ "-mafft-prt2nuc." ++ toString num ++ ".aln"

def concatPath (pref : String) : String :=
  pref ++ "-complete.cat.aln"

def firstMissing (fs : FS) (pref : String) : List Nat → Option Nat
  | [] => none
  | n :: rest =>
    if (lookupFile fs (famPath pref n)).isSome then firstMissing fs pref rest
    else some n

structure ConcatResult : Type where
  res : Except String (String × String)
  fs : FS
  logs : List LogMsg

def concat_alignments (fam_nums : List Nat) (pref : String) (quiet : Bool)
    (fs : FS) : ConcatResult :=
  let output := concatPath pref
  match lookupFile fs output with
  | some _ => ⟨.ok (output, "OK"), fs, [.alreadyConcat output]⟩
  | none =>
    match firstMissing fs pref fam_nums with
    | some n =>
        ⟨.error (famPath pref n), fs,
          [.concatenating, .missingFamFile (famPath pref n)]⟩
    | none =>
        let content :=
          String.join (fam_nums.map (fun n => (lookupFile fs (famPath pref n)).getD ""))
        ⟨.ok (output, "Done"), writeFile fs output content, [.concatenating]⟩

theorem firstMissing_eq_none (fs : FS) (pref : String) (l : List Nat)
    (h : ∀ n ∈ l, (lookupFile fs (famPath pref n)).isSome = true) :
    firstMissing fs pref l = none := by
  induction l with
  | nil => rfl
  | cons n rest ih =>
    rw [firstMissing, if_pos (h n (by simp))]
    exact ih (fun m hm => h m (by simp [hm]))

theorem firstMissing_of_missing (fs : FS) (pref : String) (l : List Nat)
    (h : ∃ n ∈ l, lookupFile fs (famPath pref n) = none) :
    ∃ m ∈ l, lookupFile fs (famPath pref m) = none ∧
      firstMissing fs pref l = some m := by
  induction l with
  | nil => rcases h with ⟨n, hn, -⟩; cases hn
  | cons n rest ih =>
    by_cases hn : (lookupFile fs (famPath pref n)).isSome = true
    · have hrest : ∃ m ∈ rest, lookupFile fs (famPath pref m) = none := by
        rcases h with ⟨m, hm, hnone⟩
        rcases List.mem_cons.mp hm with rfl | hm'
        · rw [hnone] at hn; cases hn
        · exact ⟨m, hm', hnone⟩
      rcases ih hrest with ⟨m, hm, hnone, hfm⟩
      refine ⟨m, by simp [hm], hnone, ?_⟩
      rw [firstMissing, if_pos hn, hfm]
    · have hnone : lookupFile fs (famPath pref n) = none := by
        cases hl : lookupFile fs (famPath pref n) with
        | none => rfl
        | some c => rw [hl] at hn; simp at hn
      refine ⟨n, by simp, hnone, ?_⟩
      rw [firstMissing, if_neg hn]

theorem map_some_facts (f : Nat → Option String) (l : List Nat) (cs : List String)
    (h : l.map f = cs.map some) :
    (∀ n ∈ l, (f n).isSome = true) ∧ l.map (fun n => (f n).getD "") = cs := by
  induction l generalizing cs with
  | nil =>
    cases cs with
    | nil => exact ⟨fun n hn => absurd hn (List.not_mem_nil n), rfl⟩
    | cons c cs => simp at h
  | cons n rest ih =>
    cases cs with
    | nil => simp at h
    | cons c cs =>
      rw [List.map_cons, List.map_cons] at h
      have h1 : f n = some c := (List.cons.injEq _ _ _ _ ▸ h).1
      have h2 : rest.map f = cs.map some := (List.cons.injEq _ _ _ _ ▸ h).2
      rcases ih cs h2 with ⟨hall, hmap⟩
      constructor
      · intro m hm
        rcases List.mem_cons.mp hm with rfl | hm'
        · simp [h1]
        · exact hall m hm'
      · simp [h1, hmap]

/-- Helper: a fresh concatenation writes the byte-for-byte concatenation of
the listed family files in order and reports `"Done"`. -/
theorem concat_fresh (fam_nums : List Nat) (pref : String) (quiet : Bool)
    (fs : FS) (cs : List String)
    (hout : lookupFile fs (concatPath pref) = none)
    (hfiles : fam_nums.map (fun n => lookupFile fs (famPath pref n)) = cs.map some) :
    concat_alignments fam_nums pref quiet fs =
      ⟨.ok (concatPath pref, "Done"),
        writeFile fs (concatPath pref) (String.join cs), [.concatenating]⟩ := by
  rcases map_some_facts (fun n => lookupFile fs (famPath pref n)) fam_nums cs hfiles
    with ⟨hall, hmap⟩
  rw [concat_alignments]
  simp only [hout, firstMissing_eq_none fs pref fam_nums hall, hmap]

/-- C1. For every family-id list whose expected alignment file
`<prefix>-mafft-prt2nuc.<id>.aln` is present for each listed id (with
contents `cs`, in list order) and no concatenated file yet, `concat_alignments`
creates `<prefix>-complete.cat.aln` whose bytes are the exact byte-for-byte
concatenation of the per-family files in the given order — no separators or
reformatting — and returns that path with status `"Done"`. -/
theorem concat_alignments_done (fam_nums : List Nat) (pref : String)
    (quiet : Bool) (fs : FS) (cs : List String)
    (hout : lookupFile fs (concatPath pref) = none)
    (hfiles : fam_nums.map (fun n => lookupFile fs (famPath pref n)) = cs.map some) :
    (concat_alignments fam_nums pref quiet fs).res =
      .ok (concatPath pref, "Done") ∧
    lookupFile (concat_alignments fam_nums pref quiet fs).fs (concatPath pref) =
      some (String.join cs) := by
  rw [concat_fresh fam_nums pref quiet fs cs hout hfiles]
  exact ⟨rfl, lookupFile_writeFile_same fs (concatPath pref) (String.join cs)⟩

/-- Witness for C1: two single-record family files concatenated in order. -/
theorem concat_alignments_done_witness :
    (concat_alignments [1, 8] "A" false
        [("A-mafft-prt2nuc.1.aln", ">GA.1_p\nAA\n"),
         ("A-mafft-prt2nuc.8.aln", ">GA.1_q\nCC\n")]).res =
      .ok ("A-complete.cat.aln", "Done") ∧
    lookupFile (concat_alignments [1, 8] "A" false
        [("A-mafft-prt2nuc.1.aln", ">GA.1_p\nAA\n"),
         ("A-mafft-prt2nuc.8.aln", ">GA.1_q\nCC\n")]).fs "A-complete.cat.aln" =
      some ">GA.1_p\nAA\n>GA.1_q\nCC\n" := by
  have h := concat_alignments_done [1, 8] "A" false
    [("A-mafft-prt2nuc.1.aln", ">GA.1_p\nAA\n"),
     ("A-mafft-prt2nuc.8.aln", ">GA.1_q\nCC\n")]
    [">GA.1_p\nAA\n", ">GA.1_q\nCC\n"] (by decide) (by decide)
  refine ⟨h.1, h.2.trans ?_⟩
  decide

/-- C6. If at least one listed family id has no file at its conventional
path (and no concatenated output pre-exists), `concat_alignments` fails
fatally with an error naming the exact missing conventional path (the first
missing one in list order), the filesystem is unchanged, and no concatenated
output file is written — no family is skipped-and-continued. -/
theorem concat_alignments_missing (fam_nums : List Nat) (pref : String)
    (quiet : Bool) (fs : FS)
    (hout : lookupFile fs (concatPath pref) = none)
    (hmiss : ∃ n ∈ fam_nums, lookupFile fs (famPath pref n) = none) :
    ∃ m ∈ fam_nums, lookupFile fs (famPath pref m) = none ∧
      concat_alignments fam_nums pref quiet fs =
        ⟨.error (famPath pref m), fs,
          [.concatenating, .missingFamFile (famPath pref m)]⟩ ∧
      lookupFile (concat_alignments fam_nums pref quiet fs).fs
        (concatPath pref) = none := by
  rcases firstMissing_of_missing fs pref fam_nums hmiss with ⟨m, hm, hnone, hfm⟩
  have heq : concat_alignments fam_nums pref quiet fs =
      ⟨.error (famPath pref m), fs,
        [.concatenating, .missingFamFile (famPath pref m)]⟩ := by
    rw [concat_alignments]
    simp only [hout, hfm]
  exact ⟨m, hm, hnone, heq, by rw [heq]; exact hout⟩

/-- Witness for C6: family 15 has no file, the error names its path. -/
theorem concat_alignments_missing_witness :
    ∃ m ∈ [1, 15], lookupFile [("A-mafft-prt2nuc.1.aln", "x")]
        (famPath "A" m) = none ∧
      concat_alignments [1, 15] "A" false [("A-mafft-prt2nuc.1.aln", "x")] =
        ⟨.error (famPath "A" m), [("A-mafft-prt2nuc.1.aln", "x")],
          [.concatenating, .missingFamFile (famPath "A" m)]⟩ ∧
      lookupFile (concat_alignments [1, 15] "A" false
          [("A-mafft-prt2nuc.1.aln", "x")]).fs (concatPath "A") = none :=
  concat_alignments_missing [1, 15] "A" false [("A-mafft-prt2nuc.1.aln", "x")]
    (by decide) ⟨15, by decide, by decide⟩

/-- C7. Whenever `<prefix>-complete.cat.aln` already exists — with any
contents `c`, including empty — `concat_alignments` returns that path with
status `"OK"` and leaves the filesystem, hence the existing file's bytes,
unchanged, regardless of the current contents of the per-family input files
(the state `fs` is arbitrary): the cache is presence-based, not
content-based. -/
theorem concat_alignments_outexists (fam_nums : List Nat) (pref : String)
    (quiet : Bool) (fs : FS) (c : String)
    (hout : lookupFile fs (concatPath pref) = some c) :
    concat_alignments fam_nums pref quiet fs =
      ⟨.ok (concatPath pref, "OK"), fs, [.alreadyConcat (concatPath pref)]⟩ ∧
    lookupFile (concat_alignments fam_nums pref quiet fs).fs (concatPath pref) =
      some c := by
  have heq : concat_alignments fam_nums pref quiet fs =
      ⟨.ok (concatPath pref, "OK"), fs, [.alreadyConcat (concatPath pref)]⟩ := by
    rw [concat_alignments]
    simp only [hout]
  exact ⟨heq, by rw [heq]; exact hout⟩

/-- Witness for C7: an empty pre-existing concatenated file is reused
untouched even though a listed family file is present with fresh content. -/
theorem concat_alignments_outexists_witness :
    concat_alignments [1] "A" false
        [("A-complete.cat.aln", ""), ("A-mafft-prt2nuc.1.aln", "new")] =
      ⟨.ok (concatPath "A", "OK"),
        [("A-complete.cat.aln", ""), ("A-mafft-prt2nuc.1.aln", "new")],
        [.alreadyConcat (concatPath "A")]⟩ :=
  (concat_alignments_outexists [1] "A" false
    [("A-complete.cat.aln", ""), ("A-mafft-prt2nuc.1.aln", "new")] ""
    (by decide)).1

theorem firstMissing_congr (fs1 fs2 : FS) (pref : String) (l : List Nat)
    (h : ∀ n ∈ l, lookupFile fs1 (famPath pref n) = lookupFile fs2 (famPath pref n)) :
    firstMissing fs1 pref l = firstMissing fs2 pref l := by
  induction l with
  | nil => rfl
  | cons n rest ih =>
    rw [firstMissing, firstMissing, h n (by simp),
      ih (fun m hm => h m (by simp [hm]))]

/-- C10. The observable outcome of `concat_alignments` depends only on the
concatenated-output path and the files of the listed family ids: two
directory states that agree on `<prefix>-complete.cat.aln` and on
`<prefix>-mafft-prt2nuc.<id>.aln` for every listed id — but may differ
arbitrarily elsewhere, e.g. in conventionally-named alignment files of
unlisted ids — yield the same result (error path, or output path and
status) and byte-identical contents at the output path, for any values of
the `quiet` flag. -/
theorem concat_alignments_noninterference (fam_nums : List Nat) (pref : String)
    (q1 q2 : Bool) (fs1 fs2 : FS)
    (hout : lookupFile fs1 (concatPath pref) = lookupFile fs2 (concatPath pref))
    (hfam : ∀ n ∈ fam_nums,
      lookupFile fs1 (famPath pref n) = lookupFile fs2 (famPath pref n)) :
    (concat_alignments fam_nums pref q1 fs1).res =
      (concat_alignments fam_nums pref q2 fs2).res ∧
    lookupFile (concat_alignments fam_nums pref q1 fs1).fs (concatPath pref) =
      lookupFile (concat_alignments fam_nums pref q2 fs2).fs (concatPath pref) := by
  have hfm := firstMissing_congr fs1 fs2 pref fam_nums hfam
  have hmap : fam_nums.map (fun n => (lookupFile fs1 (famPath pref n)).getD "") =
      fam_nums.map (fun n => (lookupFile fs2 (famPath pref n)).getD "") := by
    apply List.map_congr_left
    intro n hn
    rw [hfam n hn]
  rw [concat_alignments, concat_alignments]
  cases hc : lookupFile fs2 (concatPath pref) with
  | some c =>
    have hout1 : lookupFile fs1 (concatPath pref) = some c := hout.trans hc
    simp [hout1, hc]
  | none =>
    have hout1 : lookupFile fs1 (concatPath pref) = none := hout.trans hc
    simp only [hout1, hc, hfm]
    cases hm : firstMissing fs2 pref fam_nums with
    | some n => simp [hout1, hc]
    | none => simp [hmap, hout1, hc, lookupFile_writeFile_same]

/-- Witness for C10: an extra, unlisted family file (id 10) with arbitrary
content does not change the outcome of concatenating families 1 and 8. -/
theorem concat_alignments_noninterference_witness :
    (concat_alignments [1, 8] "A" false
        [("A-mafft-prt2nuc.1.aln", "u"), ("A-mafft-prt2nuc.8.aln", "v")]).res =
      (concat_alignments [1, 8] "A" true
        [("A-mafft-prt2nuc.1.aln", "u"), ("A-mafft-prt2nuc.8.aln", "v"),
         ("A-mafft-prt2nuc.10.aln", "Hello !")]).res ∧
    lookupFile (concat_alignments [1, 8] "A" false
        [("A-mafft-prt2nuc.1.aln", "u"), ("A-mafft-prt2nuc.8.aln", "v")]).fs
        (concatPath "A") =
      lookupFile (concat_alignments [1, 8] "A" true
        [("A-mafft-prt2nuc.1.aln", "u"), ("A-mafft-prt2nuc.8.aln", "v"),
         ("A-mafft-prt2nuc.10.aln", "Hello !")]).fs (concatPath "A") :=
  concat_alignments_noninterference [1, 8] "A" false true
    [("A-mafft-prt2nuc.1.aln", "u"), ("A-mafft-prt2nuc.8.aln", "v")]
    [("A-mafft-prt2nuc.1.aln", "u"), ("A-mafft-prt2nuc.8.aln", "v"),
     ("A-mafft-prt2nuc.10.aln", "Hello !")]
    (by decide) (by decide)

/-! ## Post-Alignment Orchestrator

`Modelled from the spec:` `post_alignment` of the absent `post_align.py`,
following spec §4.7: run the Family Concatenator (its failure is fatal),
derive `tree_dir = outdir/"Phylo-"+name` and the grouped path
`tree_dir/name+".grp.aln"`, then run the Idempotent Grouping Launcher with
the concatenation status; a grouping failure is only logged ("could not
group sequences by genome") and the function returns normally. -/

def logOfErr : ReadError → LogMsg
  | .unmatched h gs => .unmatched h gs
  | .uneven => .uneven

theorem group_by_genome_of_readError (genomes alnLines : List String)
    (outPath : String) (fs : FS) (e : ReadError)
    (h : read_alignments alnLines genomes = .error e) :
    group_by_genome genomes alnLines outPath fs = (false, fs, [logOfErr e]) := by
  cases e with
  | unmatched hd gs => simp [group_by_genome, h, logOfErr]
  | uneven => simp [group_by_genome, h, logOfErr]

def grpPath (outdir dname : String) : String :=
  outdir ++ "/Phylo-" ++ dname ++ "/" ++ dname ++ ".grp.aln"

def post_alignment (fam_nums : List Nat) (all_genomes : List String)
    (pref outdir dname : String) (quiet : Bool) (fs : FS) :
    Except String (FS × List LogMsg) :=
  let c := concat_alignments fam_nums pref quiet fs
  match c.res with
  | .error p => .error p
  | .ok (outPath, status) =>
    let alnLines := linesOf ((lookupFile c.fs outPath).getD "")
    let r := launch_group_by_genome all_genomes alnLines status
      (grpPath outdir dname) c.fs
    if r.1 then .ok (r.2.1, c.logs ++ r.2.2)
    else .ok (r.2.1, c.logs ++ r.2.2 ++ [.couldNotGroup])

/-- C9. When concatenation succeeds (fresh output, every listed family file
present with contents `cs`) but grouping fails — `read_alignments` rejects
the concatenated content, e.g. because the supplied genome list misses a
genome present in the alignments — `post_alignment` returns normally
(`.ok`, no abort) with an error log that sequences could not be grouped by
genome; afterwards the grouped file does not exist while the concatenated
file is present with exactly the concatenation of the family files. -/
theorem post_alignment_group_fail (fam_nums : List Nat)
    (all_genomes : List String) (pref outdir dname : String) (quiet : Bool)
    (fs : FS) (cs : List String) (e : ReadError)
    (hout : lookupFile fs (concatPath pref) = none)
    (hfiles : fam_nums.map (fun n => lookupFile fs (famPath pref n)) = cs.map some)
    (hgrpout : lookupFile fs (grpPath outdir dname) = none)
    (hne : concatPath pref ≠ grpPath outdir dname)
    (hfail : read_alignments (linesOf (String.join cs)) all_genomes = .error e) :
    post_alignment fam_nums all_genomes pref outdir dname quiet fs =
      .ok (writeFile fs (concatPath pref) (String.join cs),
        [.concatenating, .grouping, logOfErr e, .couldNotGroup]) ∧
    lookupFile (writeFile fs (concatPath pref) (String.join cs))
      (grpPath outdir dname) = none ∧
    lookupFile (writeFile fs (concatPath pref) (String.join cs))
      (concatPath pref) = some (String.join cs) := by
  have hcat := concat_fresh fam_nums pref quiet fs cs hout hfiles
  have hcontent : lookupFile (writeFile fs (concatPath pref) (String.join cs))
      (concatPath pref) = some (String.join cs) :=
    lookupFile_writeFile_same fs (concatPath pref) (String.join cs)
  have hgbg := group_by_genome_of_readError all_genomes
    (linesOf (String.join cs)) (grpPath outdir dname)
    (writeFile fs (concatPath pref) (String.join cs)) e hfail
  have hlaunch : launch_group_by_genome all_genomes (linesOf (String.join cs))
      "Done" (grpPath outdir dname)
      (writeFile fs (concatPath pref) (String.join cs)) =
      (false, writeFile fs (concatPath pref) (String.join cs),
        [LogMsg.grouping, logOfErr e]) := by
    rw [launch_group_by_genome, if_neg (by rintro ⟨-, hd⟩; exact hd rfl)]
    simp [hgbg]
  refine ⟨?_, ?_, hcontent⟩
  · rw [post_alignment]
    simp only [hcat, hcontent, Option.getD_some, hlaunch]
    simp
  · rw [lookupFile_writeFile_other fs (concatPath pref) (grpPath outdir dname)
      (String.join cs) hne]
    exact hgrpout

/-- Witness for C9: one family file whose single record's header matches no
supplied genome; concatenation succeeds, grouping fails, the run ends
normally. -/
theorem post_alignment_group_fail_witness :
    post_alignment [1] ["GA.1"] "A" "out" "T" false
        [("A-mafft-prt2nuc.1.aln", ">GX.9_p1\nAAA\n")] =
      .ok (writeFile [("A-mafft-prt2nuc.1.aln", ">GX.9_p1\nAAA\n")]
            (concatPath "A") ">GX.9_p1\nAAA\n",
        [.concatenating, .grouping,
          logOfErr (.unmatched ">GX.9_p1" ["GA.1"]), .couldNotGroup]) ∧
    lookupFile (writeFile [("A-mafft-prt2nuc.1.aln", ">GX.9_p1\nAAA\n")]
        (concatPath "A") ">GX.9_p1\nAAA\n") (grpPath "out" "T") = none := by
  have h := post_alignment_group_fail [1] ["GA.1"] "A" "out" "T" false
    [("A-mafft-prt2nuc.1.aln", ">GX.9_p1\nAAA\n")] [">GX.9_p1\nAAA\n"]
    (.unmatched ">GX.9_p1" ["GA.1"]) (by decide) (by decide) (by decide)
    (by decide) rfl
  have hjoin : String.join [">GX.9_p1\nAAA\n"] = ">GX.9_p1\nAAA\n" := by decide
  rw [hjoin] at h
  exact ⟨h.1, h.2.1⟩

end PostAlign
